import Mathlib

/-!
Verification of the stage-abstraction layer of libxcam
(`xcore/image_handler.h` and `tests/test-video-stabilization.cpp`).

Shallow embedding conventions:
* `SmartPtr<T>` becomes `Option T` (`none` models a null pointer).
* The metadata list `MetaBaseList _metas` becomes `List (Option MetaBase)`:
  the C++ list stores smart pointers, which could in principle be null.
* A runtime-checked capability downcast `dynamic_cast_ptr<MType>` is
  modelled by comparing a capability tag carried by each item.
* `uint32_t` arithmetic is `Nat` arithmetic reduced `% 2 ^ 32` where the
  source can wrap.
-/

set_option autoImplicit false

/-- A metadata item (`MetaBase`): an opaque payload with a dynamic-type
(capability) tag. The `payload` field distinguishes items with the same
capability. -/
structure MetaBase where
  capability : Nat
  payload : Nat
  deriving DecidableEq, Repr

/-- Embedding of `SmartPtr<T>`: a possibly-null reference. -/
abbrev SPtr (α : Type) := Option α

/-- Embedding of `SmartPtr<MType> m = (*i).dynamic_cast_ptr<MType> ()`: the downcast of a
stored pointer to the requested capability; null if the pointer is null or
the item does not have the capability. -/
def dynamic_cast_ptr (cap : Nat) (p : SPtr MetaBase) : SPtr MetaBase :=
  match p with
  | none => none
  | some m => if m.capability = cap then some m else none

/-- Embedding of `ImageHandler::Parameters::add_meta` (image_handler.h:133-141):
rejects a null pointer returning `false`, otherwise appends to `_metas`
and returns `true`. Result is `(returned bool, new _metas)`. -/
def add_meta (metas : List (SPtr MetaBase)) (meta : SPtr MetaBase) :
    Bool × List (SPtr MetaBase) :=
  match meta with
  | none => (false, metas)
  | some m => (true, metas ++ [some m])

/-- Embedding of `ImageHandler::Parameters::find_meta<MType>` (image_handler.h:143-153):
linear scan over `_metas`; returns the first element whose downcast to the
requested capability is non-null, else null. -/
def find_meta (metas : List (SPtr MetaBase)) (cap : Nat) : SPtr MetaBase :=
  match metas with
  | [] => none
  | p :: rest =>
    match dynamic_cast_ptr cap p with
    | some m => some m
    | none => find_meta rest cap

/-- A sequence of `add_meta` calls starting from the empty container,
keeping only the container state. -/
def run_adds (items : List (SPtr MetaBase)) : List (SPtr MetaBase) :=
  items.foldl (fun metas it => (add_meta metas it).2) []

/-! ## Memory model for `ensure_gpu_buffer_done` (test-video-stabilization.cpp:96-116) -/

/-- Modulus of `uint32_t` arithmetic. -/
def UINT32_MOD : Nat := 2 ^ 32

/-- Embedding of `VideoBufferPlanarInfo`: the fields read by `ensure_gpu_buffer_done`. -/
structure VideoBufferPlanarInfo where
  width : Nat
  height : Nat
  pixel_bytes : Nat

/-- Embedding of `VideoBufferInfo`: the fields read by `ensure_gpu_buffer_done`.
`offsets`/`strides` are per-component arrays, modelled as functions;
`planar` models `get_planar_info` for each component index. -/
structure VideoBufferInfo where
  components : Nat
  offsets : Nat → Nat
  strides : Nat → Nat
  planar : Nat → VideoBufferPlanarInfo

/-- The mapped buffer memory: byte value at each index. -/
abbrev Mem := Nat → Nat

/-- One inner-loop iteration body: `if (memory[mem_idx] == 1) memory[mem_idx] = 1;`. -/
def touch_byte (mem : Mem) (idx : Nat) : Mem :=
  if mem idx = 1 then (fun j => if j = idx then 1 else mem j) else mem

/-- Embedding of `uint32_t line_bytes = planar.width * planar.pixel_bytes;`. -/
def line_bytes32 (p : VideoBufferPlanarInfo) : Nat :=
  (p.width * p.pixel_bytes) % UINT32_MOD

/-- The index `info.offsets[index] + i * info.strides[index] + line_bytes - 1` in
`uint32_t` arithmetic (`- 1` may wrap when `line_bytes = 0`). -/
def mem_index (info : VideoBufferInfo) (index i : Nat) : Nat :=
  (info.offsets index + i * info.strides index
    + line_bytes32 (info.planar index) + (UINT32_MOD - 1)) % UINT32_MOD

/-- The inner loop over lines `i < planar.height` of one component. -/
def ensure_plane (info : VideoBufferInfo) (index : Nat) (mem : Mem) : Mem :=
  (List.range (info.planar index).height).foldl
    (fun m i => touch_byte m (mem_index info index i)) mem

/-- Embedding of `ensure_gpu_buffer_done` (test-video-stabilization.cpp:96-116): maps the
buffer and walks the last byte of every line of every component, writing `1`
back into a byte exactly when it already reads `1`. -/
def ensure_gpu_buffer_done (info : VideoBufferInfo) (mem : Mem) : Mem :=
  (List.range info.components).foldl (fun m index => ensure_plane info index m) mem

/-! ## Helper lemmas -/

theorem touch_byte_id (mem : Mem) (idx : Nat) : touch_byte mem idx = mem := by
  unfold touch_byte
  split
  · funext j
    by_cases hj : j = idx
    · subst hj
      simp_all
    · simp [hj]
  · rfl

theorem foldl_touch_id (l : List Nat) (f : Nat → Nat) (mem : Mem) :
    l.foldl (fun m i => touch_byte m (f i)) mem = mem := by
  induction l generalizing mem with
  | nil => rfl
  | cons a t ih => simp [List.foldl_cons, touch_byte_id, ih]

theorem ensure_plane_id (info : VideoBufferInfo) (index : Nat) (mem : Mem) :
    ensure_plane info index mem = mem := by
  unfold ensure_plane
  exact foldl_touch_id _ _ mem

theorem add_meta_preserves_isSome (metas : List (SPtr MetaBase))
    (it : SPtr MetaBase) (h : metas.all Option.isSome = true) :
    ((add_meta metas it).2).all Option.isSome = true := by
  cases it with
  | none => simpa [add_meta] using h
  | some m => simp [add_meta, List.all_append, h]

theorem run_adds_aux (items : List (SPtr MetaBase)) (metas : List (SPtr MetaBase))
    (h : metas.all Option.isSome = true) :
    (items.foldl (fun ms it => (add_meta ms it).2) metas).all Option.isSome = true := by
  induction items generalizing metas with
  | nil => simpa using h
  | cons a t ih => exact ih _ (add_meta_preserves_isSome metas a h)

/-! ## Claims about the metadata container and the test helper -/

/-- C3: adding a null item returns failure and leaves the container
unchanged; adding a non-null item appends it and returns success. -/
theorem add_meta_null_rejected_nonnull_appended (metas : List (SPtr MetaBase)) :
    add_meta metas none = (false, metas) ∧
    ∀ x : MetaBase, add_meta metas (some x) = (true, metas ++ [some x]) :=
  ⟨rfl, fun _ => rfl⟩

/-- C4: `find_meta` performs a linear scan in insertion order and returns
the earliest stored item whose downcast to the requested capability
succeeds; if none matches, it returns null. (`head?` of the in-order list
of matching items is exactly the earliest match, or `none`.) -/
theorem find_meta_earliest_match (metas : List (SPtr MetaBase)) (cap : Nat) :
    find_meta metas cap = (metas.filterMap (dynamic_cast_ptr cap)).head? := by
  induction metas with
  | nil => rfl
  | cons p rest ih =>
    cases h : dynamic_cast_ptr cap p with
    | none => simp [find_meta, h, ih]
    | some m => simp [find_meta, h]

/-- C5 counterexample: with a container already holding an item of
capability 5, adding a second item of capability 5 and then finding by
capability 5 returns the earlier item, not the one just added. -/
theorem add_then_find_not_same_item :
    ¬ (find_meta (add_meta [some ⟨5, 0⟩] (some ⟨5, 1⟩)).2 5
        = some (⟨5, 1⟩ : MetaBase)) := by
  decide

/-- C5 (amended): after `add_meta` of a non-null item, `find_meta` with
that item's capability returns that same item, provided no item already
stored matches that capability (otherwise the earliest match wins). -/
theorem add_then_find_returns_item (metas : List (SPtr MetaBase)) (m : MetaBase)
    (h : ∀ p ∈ metas, dynamic_cast_ptr m.capability p = none) :
    find_meta (add_meta metas (some m)).2 m.capability = some m := by
  induction metas with
  | nil => simp [add_meta, find_meta, dynamic_cast_ptr]
  | cons p rest ih =>
    have hp : dynamic_cast_ptr m.capability p = none := h p (by simp)
    have hrest : ∀ q ∈ rest, dynamic_cast_ptr m.capability q = none :=
      fun q hq => h q (by simp [hq])
    simpa [add_meta, find_meta, hp] using ih hrest

/-- C5 amended witness: on the empty container, adding the item ⟨1, 2⟩ and
finding by capability 1 returns it. -/
theorem add_then_find_returns_item_witness :
    find_meta (add_meta [] (some ⟨1, 2⟩)).2 (1 : Nat) = some (⟨1, 2⟩ : MetaBase) :=
  add_then_find_returns_item [] ⟨1, 2⟩ (fun p hp => absurd hp (List.not_mem_nil p))

/-- C6: every sequence of `add_meta` calls starting from the empty
container yields a container all of whose stored pointers are non-null. -/
theorem run_adds_all_nonnull (items : List (SPtr MetaBase)) :
    (run_adds items).all Option.isSome = true :=
  run_adds_aux items [] rfl

/-- C10: `ensure_gpu_buffer_done` leaves every byte of the mapped memory
unchanged: its only write stores `1` into a byte exactly when that byte
already reads `1`. -/
theorem ensure_gpu_buffer_done_preserves_memory
    (info : VideoBufferInfo) (mem : Mem) (j : Nat) :
    ensure_gpu_buffer_done info mem j = mem j := by
  suffices h : ensure_gpu_buffer_done info mem = mem by rw [h]
  unfold ensure_gpu_buffer_done
  induction (List.range info.components) generalizing mem with
  | nil => rfl
  | cons a t ih => simp [List.foldl_cons, ensure_plane_id, ih]

/-! ## The processing stage (`ImageHandler`) -/

/-- A completion callback object (`ImageHandler::Callback`); identified by a
tag, since its `execute_status` body is consumer-supplied. -/
structure Callback where
  id : Nat
  deriving DecidableEq, Repr

/-- Embedding of `XCamReturn` status codes, restricted to those the stage layer surfaces:
no-error, invalid-parameter, resource-exhausted (memory), invalid-state
(order), and an opaque stage-algorithm failure. -/
inductive XCamReturn where
  | NoError
  | ErrorParam
  | ErrorMem
  | ErrorOrder
  | ErrorUnknown
  deriving DecidableEq, Repr

/-- Lifecycle states of a processing stage (spec section 4.4). -/
inductive LifeState where
  | Unconfigured
  | Configured
  | Terminated
  deriving DecidableEq, Repr

/-- The observable state of an `ImageHandler`: lifecycle state, whether
self-allocation is enabled (`_enable_allocator`), the private allocator
(`_allocator`, modelled by presence only), the allocator capacity
(`_buf_capacity`), and the registered callback (`_callback`). -/
structure Stage where
  state : LifeState
  enable_alloc : Bool
  allocator : Option Unit
  buf_capacity : Nat
  callback : Option Callback
  deriving DecidableEq, Repr

/-- Embedding of `ImageHandler::set_callback` (image_handler.h:80-83): stores the new
callback pointer unconditionally and returns `true`. -/
def set_callback (s : Stage) (cb : Option Callback) : Bool × Stage :=
  (true, { s with callback := cb })

/-- Embedding of `ImageHandler::get_callback` (image_handler.h:84-86). -/
def get_callback (s : Stage) : Option Callback :=
  s.callback

/-- The constant `XCAM_DEFAULT_HANDLER_BUF_CAP` (image_handler.h:40). -/
def XCAM_DEFAULT_HANDLER_BUF_CAP : Nat := 4

/-- Modelled from the spec: the body of `ImageHandler::enable_allocator` is
not under src/ (only its declaration, image_handler.h:91, is); per the spec
it records the self-allocation flag and the allocator capacity and
succeeds. -/
def enable_allocator (s : Stage) (enable : Bool) (buf_count : Nat) : Bool × Stage :=
  (true, { s with enable_alloc := enable, buf_capacity := buf_count })

/-- A call of `enable_allocator` that omits the capacity argument: the
declaration (image_handler.h:91) defaults it to
`XCAM_DEFAULT_HANDLER_BUF_CAP`. -/
def enable_allocator_default_cap (s : Stage) (enable : Bool) : Bool × Stage :=
  enable_allocator s enable XCAM_DEFAULT_HANDLER_BUF_CAP

/-- Modelled from the spec: the body of `ImageHandler::terminate` is not
under src/ (only its declaration, image_handler.h:97, is); per the spec it
releases the private allocator if any, moves the stage to `Terminated`, and
always returns success. -/
def terminate (s : Stage) : XCamReturn × Stage :=
  (.NoError, { s with state := .Terminated, allocator := none })

/-- Modelled from the spec: the body of `ImageHandler::finish` is not under
src/ (only its declaration, image_handler.h:96, is); per the spec it drains
pending work and always returns success to the caller (internal problems
are only logged). -/
def finish (s : Stage) : XCamReturn × Stage :=
  (.NoError, s)

/-- The stage-external outcomes one `execute_buffer` call depends on: the
result of the `configure_resource` extension point, the result of allocator
construction/reservation, whether `params.out_buf` is already present,
whether the private allocator yields a free buffer, and the result of the
stage-specific work routine. -/
structure CallInput where
  cfg_res : XCamReturn
  alloc_res : XCamReturn
  out_present : Bool
  acquire : Option Unit
  work_res : XCamReturn
  deriving DecidableEq, Repr

/-- Modelled from the spec: the body of
`ImageHandler::execute_status_check` is not under src/ (only its
declaration, image_handler.h:105, is); per the spec it funnels the final
status into the registered callback, or does nothing when none is
registered. Result: the list of callback invocations (their statuses). -/
def execute_status_check (s : Stage) (err : XCamReturn) : List XCamReturn :=
  match s.callback with
  | some _ => [err]
  | none => []

/-- Modelled from the spec: the body of `ImageHandler::execute_buffer` is
not under src/ (only its declaration, image_handler.h:95, is); per the
spec entry-point algorithm (section 4.4): after terminate it fails with an
invalid-state error; otherwise it lazily configures (building the allocator
when self-allocation is enabled), acquires an output buffer from the
private allocator when needed (exhaustion is a resource error), then
delegates to the work routine; every path funnels the final status through
one `execute_status_check`. Asynchronous completion is collapsed to the
call's final status.

`configure_step`: the lazy-configuration part — on an unconfigured stage
it runs the `configure_resource` extension point and, when self-allocation
is enabled, builds and reserves the private allocator; any failure leaves
the stage unconfigured (retried on the next call). -/
def configure_step (s : Stage) (c : CallInput) : XCamReturn × Stage :=
  if s.state = .Unconfigured then
    if c.cfg_res ≠ .NoError then (c.cfg_res, s)
    else if s.enable_alloc ∧ c.alloc_res ≠ .NoError then (c.alloc_res, s)
    else (.NoError, { s with
      state := .Configured
      allocator := if s.enable_alloc then some () else s.allocator })
  else (.NoError, s)

/-- Modelled from the spec: the entry point itself (see the comment on
`configure_step`) — after terminate it fails with an invalid-state error;
otherwise it lazily configures, acquires an output buffer from the private
allocator when one is needed and absent (exhaustion is a resource error),
then delegates to the work routine; every path funnels the final status
through one `execute_status_check`. Result: (returned status, callback
invocations, new stage state). -/
def execute_buffer (s : Stage) (c : CallInput) :
    XCamReturn × List XCamReturn × Stage :=
  if s.state = .Terminated then
    (.ErrorOrder, execute_status_check s .ErrorOrder, s)
  else
    let cfg := configure_step s c
    if cfg.1 ≠ .NoError then
      (cfg.1, execute_status_check cfg.2 cfg.1, cfg.2)
    else if cfg.2.enable_alloc ∧ ¬ c.out_present ∧ c.acquire = none then
      (.ErrorMem, execute_status_check cfg.2 .ErrorMem, cfg.2)
    else
      (c.work_res, execute_status_check cfg.2 c.work_res, cfg.2)

/-- A sequence of `execute_buffer` calls, collecting each call's returned
status and callback invocations. -/
def run_calls (s : Stage) (cs : List CallInput) :
    List (XCamReturn × List XCamReturn) × Stage :=
  match cs with
  | [] => ([], s)
  | c :: rest =>
    let r := execute_buffer s c
    let t := run_calls r.2.2 rest
    ((r.1, r.2.1) :: t.1, t.2)

theorem configure_step_callback (s : Stage) (c : CallInput) :
    ((configure_step s c).2).callback = s.callback := by
  unfold configure_step
  split_ifs <;> rfl

theorem execute_buffer_callback (s : Stage) (c : CallInput) :
    ((execute_buffer s c).2.2).callback = s.callback := by
  unfold execute_buffer
  dsimp only
  split_ifs <;> simp [configure_step_callback]

theorem execute_buffer_events (s : Stage) (c : CallInput) :
    (execute_buffer s c).2.1 = execute_status_check s (execute_buffer s c).1 := by
  unfold execute_buffer
  dsimp only
  split_ifs <;> simp [execute_status_check, configure_step_callback]

theorem events_of_some (s : Stage) (cb : Callback) (h : s.callback = some cb)
    (err : XCamReturn) : execute_status_check s err = [err] := by
  simp [execute_status_check, h]

theorem events_of_none (s : Stage) (h : s.callback = none)
    (err : XCamReturn) : execute_status_check s err = [] := by
  simp [execute_status_check, h]

/-! ## Claims about the stage -/

/-- C1: over any sequence of entry-point calls, each call produces exactly
one result record; with a callback registered, each call invokes the
callback exactly once and with precisely the status the call returns; with
no callback registered, no call invokes any callback. -/
theorem callback_exactly_once_per_call (s : Stage) (cs : List CallInput) :
    (run_calls s cs).1.length = cs.length ∧
    (Option.isSome s.callback = true →
      ∀ p ∈ (run_calls s cs).1, p.2 = [p.1]) ∧
    (s.callback = none →
      ∀ p ∈ (run_calls s cs).1, p.2 = []) := by
  induction cs generalizing s with
  | nil =>
    exact ⟨rfl, fun _ p hp => absurd hp (List.not_mem_nil p),
      fun _ p hp => absurd hp (List.not_mem_nil p)⟩
  | cons c rest ih =>
    refine ⟨?_, ?_, ?_⟩
    · simpa [run_calls] using (ih (execute_buffer s c).2.2).1
    · intro hs p hp
      simp only [run_calls, List.mem_cons] at hp
      rcases hp with hp | hp
      · obtain ⟨cb, hcb⟩ := Option.isSome_iff_exists.mp hs
        rw [hp]
        simpa [execute_buffer_events s c] using events_of_some s cb hcb _
      · refine (ih (execute_buffer s c).2.2).2.1 ?_ p hp
        rw [execute_buffer_callback]
        exact hs
    · intro hs p hp
      simp only [run_calls, List.mem_cons] at hp
      rcases hp with hp | hp
      · rw [hp]
        simpa [execute_buffer_events s c] using events_of_none s hs _
      · refine (ih (execute_buffer s c).2.2).2.2 ?_ p hp
        rw [execute_buffer_callback]
        exact hs

/-- A stage with a registered callback, used as a concrete input. -/
def stage_cb : Stage :=
  { state := .Unconfigured
    enable_alloc := false
    allocator := none
    buf_capacity := XCAM_DEFAULT_HANDLER_BUF_CAP
    callback := some ⟨0⟩ }

/-- A stage with no registered callback, used as a concrete input. -/
def stage_nocb : Stage :=
  { stage_cb with callback := none }

/-- A concrete entry-point call input. -/
def call0 : CallInput :=
  { cfg_res := .NoError
    alloc_res := .NoError
    out_present := true
    acquire := none
    work_res := .NoError }

/-- C1 witness: the exactly-once and never-invoked guarantees evaluated at
concrete stages and one concrete call. -/
theorem callback_exactly_once_per_call_witness :
    ((run_calls stage_cb [call0]).1.length = [call0].length) ∧
    (∀ p ∈ (run_calls stage_cb [call0]).1, p.2 = [p.1]) ∧
    (∀ p ∈ (run_calls stage_nocb [call0]).1, p.2 = []) :=
  ⟨(callback_exactly_once_per_call stage_cb [call0]).1,
    (callback_exactly_once_per_call stage_cb [call0]).2.1 rfl,
    (callback_exactly_once_per_call stage_nocb [call0]).2.2 rfl⟩

/-- C2: `terminate` is idempotent — a second call returns the same status
and yields the same observable stage state as the first; every call
(including one on a never-configured stage) returns success; and after it
no private allocator remains. -/
theorem terminate_idempotent (s : Stage) :
    (terminate (terminate s).2).2 = (terminate s).2 ∧
    (terminate (terminate s).2).1 = (terminate s).1 ∧
    (terminate s).1 = .NoError ∧
    ((terminate s).2).allocator = none :=
  ⟨rfl, rfl, rfl, rfl⟩

/-- C7: a stage stores at most one callback — a second `set_callback`
replaces the first (afterwards `get_callback` yields the most recent one)
and both registrations report success. -/
theorem set_callback_replaces (s : Stage) (cb1 cb2 : Option Callback) :
    (set_callback s cb1).1 = true ∧
    (set_callback (set_callback s cb1).2 cb2).1 = true ∧
    get_callback (set_callback (set_callback s cb1).2 cb2).2 = cb2 :=
  ⟨rfl, rfl, rfl⟩

/-- C8: `finish` and `terminate` return success from every stage state. -/
theorem finish_terminate_always_succeed (s : Stage) :
    (finish s).1 = .NoError ∧ (terminate s).1 = .NoError :=
  ⟨rfl, rfl⟩

/-- C9: enabling self-allocation without an explicit capacity argument sets
the stage's buffer capacity to the default, 4. -/
theorem enable_allocator_default_capacity (s : Stage) (enable : Bool) :
    ((enable_allocator_default_cap s enable).2).buf_capacity = 4 :=
  rfl
